import Mathlib

/-!
Verification of the benchmark runner in `run.py` (and its data model) against
its natural-language specification.  The Python source is shallowly embedded:

* pure helpers (`count_tokens`, question padding, payload construction,
  response-field extraction, `int(...)` parsing of the extension prompt)
  become Lean functions translated clause by clause from the source;
* effects are parameterised: the network is an oracle mapping each call to
  either a parsed JSON body or a raised exception, wall-clock durations are an
  oracle of rationals, and the keypress/console channel is an oracle giving,
  after each regular call, the line typed by the user (or nothing when the
  reserved key was not pressed);
* the nested benchmark loop of `run_benchmark` becomes a structurally
  recursive function threading the call counter and the regular-call counter,
  returning the list of emitted result rows in completion order.  The
  fixed cooldown (`time.sleep(1)`) has no observable effect in the embedding
  beyond sequencing.
-/

namespace BenchRun

/-- Characters Python `str.strip()` and `int()` treat as whitespace. -/
def pyIsSpace (c : Char) : Bool :=
  c == ' ' || c == '\t' || c == '\n' || c == '\r' || c == '\x0b' || c == '\x0c'

/-- Strip leading and trailing Python whitespace from a character list. -/
def pyStripList (cs : List Char) : List Char :=
  ((cs.dropWhile pyIsSpace).reverse.dropWhile pyIsSpace).reverse

/-- Python `s.strip()`. -/
def pyStrip (s : String) : String := String.mk (pyStripList s.toList)

/-- Python slicing / bounded read: the first `n` characters of `s`
(`f.read(n)`, `s[:n]`). -/
def pyTake (s : String) (n : Nat) : String := String.mk (s.toList.take n)

/-- `MODELS` from run.py: the fixed endpoint identifiers benchmarked. -/
def MODELS : List String :=
  ["anthropic.claude-3-5-sonnet-20240620-v1:0",
   "eu.amazon.nova-lite-v1:0",
   "amazon.titan-embed-text-v2:0",
   "cohere.rerank-v3-5:0"]

/-- `count_tokens` from run.py: rough approximation, 4 chars = 1 token
(`len(text) // 4`, Python floor division). -/
def count_tokens (text : String) : Nat := text.length / 4

/-- The framing inserted between a question and the reference-text excerpt in
`load_questions` (the f-string glue around `bible_text`). -/
def contextHeader : String := "\n\nFor reference, here is some additional context:\n\n"

/-- `load_questions` from run.py, with the two file reads made explicit
arguments: `lines` are the lines of questions.txt (without newline
terminators) and `bibleText` the contents of bible.txt.  The list
comprehension strips every line and keeps the non-empty ones; `f.read(24000)`
takes the first 24000 characters; each kept question is suffixed with the
framed excerpt. -/
def load_questions (lines : List String) (bibleText : String) : List String :=
  let questions := (lines.map pyStrip).filter (fun l => l != "")
  let bible := pyTake bibleText 24000
  questions.map (fun q => q ++ contextHeader ++ bible)

/-- `pat` is a prefix of the character list (clause of substring search). -/
def leadsWith : List Char → List Char → Bool
  | [], _ => true
  | _ :: _, [] => false
  | a :: as, b :: bs => a == b && leadsWith as bs

/-- Substring search over character lists. -/
def hasSub : List Char → List Char → Bool
  | [], pat => pat.isEmpty
  | c :: t, pat => leadsWith pat (c :: t) || hasSub t pat

/-- Python `pat in s` on strings. -/
def strContains (s pat : String) : Bool := hasSub s.toList pat.toList

mutual
/-- Parsed JSON values, as produced by `json.loads` on a response body. -/
inductive JsonVal : Type where
  | str (s : String)
  | num (n : Int)
  | arr (xs : JsonArr)
  | obj (fs : JsonObj)
inductive JsonArr : Type where
  | nil
  | cons (v : JsonVal) (rest : JsonArr)
inductive JsonObj : Type where
  | nil
  | cons (k : String) (v : JsonVal) (rest : JsonObj)
end

mutual
/-- Python `str(...)` rendering of a parsed JSON value (used for the
truncated previews of embedding vectors and rerank results). -/
def pyRepr : JsonVal → String
  | .str s => "\x27" ++ s ++ "\x27"
  | .num n => toString n
  | .arr xs => "[" ++ pyReprArr xs ++ "]"
  | .obj fs => "\x7b" ++ pyReprObj fs ++ "\x7d"
def pyReprArr : JsonArr → String
  | .nil => ""
  | .cons v .nil => pyRepr v
  | .cons v rest => pyRepr v ++ ", " ++ pyReprArr rest
def pyReprObj : JsonObj → String
  | .nil => ""
  | .cons k v .nil => "\x27" ++ k ++ "\x27: " ++ pyRepr v
  | .cons k v rest => "\x27" ++ k ++ "\x27: " ++ pyRepr v ++ ", " ++ pyReprObj rest
end

/-- Dictionary lookup clause of `body[key]`: raises `KeyError` when absent. -/
def objFind : JsonObj → String → Except String JsonVal
  | .nil, key => .error ("KeyError: " ++ key)
  | .cons k v rest, key => if k == key then .ok v else objFind rest key

/-- Python `body[key]`: `TypeError` on a non-dict, `KeyError` when absent. -/
def jsonGet : JsonVal → String → Except String JsonVal
  | .obj fs, key => objFind fs key
  | _, key => .error ("TypeError: value is not subscriptable by key " ++ key)

/-- List indexing clause of `xs[i]`: raises `IndexError` past the end. -/
def arrNth : JsonArr → Nat → Except String JsonVal
  | .nil, _ => .error "IndexError: list index out of range"
  | .cons v _, 0 => .ok v
  | .cons _ rest, n + 1 => arrNth rest n

/-- Python `xs[i]` on a parsed value. -/
def jsonIndex : JsonVal → Nat → Except String JsonVal
  | .arr xs, n => arrNth xs n
  | _, _ => .error "TypeError: value is not indexable"

/-- A fetched JSON value kept as Python response text.  Python keeps the raw
dynamic value; the embedding coerces a non-string via its `str` rendering. -/
def jsonText : JsonVal → String
  | .str s => s
  | v => pyRepr v

/-- One `{"role": ..., "content": ...}` entry of a Claude messages list. -/
structure ChatMessage where
  role : String
  content : String

/-- One Nova message: role plus the `text` fields of its content list. -/
structure NovaMessage where
  role : String
  content : List String

/-- The request body built by `invoke_model`, one constructor per branch of
its dispatch on the model identifier.  Fields mirror the JSON keys of the
corresponding `json.dumps` call; the Nova constructor has no max-token field
because the source omits it (`Nova does not accept max_tokens parameter`). -/
inductive RequestPayload : Type where
  | claude (anthropicVersion : String) (maxTokens : Nat) (messages : List ChatMessage)
  | nova (messages : List NovaMessage)
  | titanEmbed (inputText : String)
  | rerank (documents : List String) (query : String) (topN : Nat)

/-- The max-output-token cap carried by a payload, when it has one. -/
def payloadMaxTokens : RequestPayload → Option Nat
  | .claude _ mt _ => some mt
  | _ => none

/-- The documents list carried by a rerank payload. -/
def payloadDocuments : RequestPayload → Option (List String)
  | .rerank docs _ _ => some docs
  | _ => none

/-- The request body `invoke_model` builds for a model identifier, following
the `if "claude" in model_id ... elif ...` dispatch in source order; `none`
when no branch matches and no request is ever sent. -/
def buildPayload (model_id prompt : String) : Option RequestPayload :=
  if strContains model_id "claude" then
    some (.claude "bedrock-2023-05-31" 1000 [⟨"user", prompt⟩])
  else if strContains model_id "nova" then
    some (.nova [⟨"user", [prompt]⟩])
  else if strContains model_id "titan-embed" then
    some (.titanEmbed prompt)
  else if strContains model_id "rerank" then
    some (.rerank ["Paris is the capital of France",
                   "London is the capital of England",
                   "Berlin is the capital of Germany"] prompt 1)
  else none

/-- How `invoke_model` extracts `response_text` from the parsed response
body, per dispatch branch: Claude reads `body[\x22content\x22][0][\x22text\x22]`, Nova
reads `body[\x22output\x22]`, the embedding and rerank branches keep the first 100
characters of the `str` rendering of `body[\x22embedding\x22]` / `body[\x22results\x22]`
followed by an ellipsis.  A lookup failure is a raised exception. -/
def extractResponse (model_id : String) (body : JsonVal) : Except String String :=
  if strContains model_id "claude" then do
    let c ← jsonGet body "content"
    let first ← jsonIndex c 0
    let t ← jsonGet first "text"
    .ok (jsonText t)
  else if strContains model_id "nova" then do
    let o ← jsonGet body "output"
    .ok (jsonText o)
  else if strContains model_id "titan-embed" then do
    let e ← jsonGet body "embedding"
    .ok (pyTake (pyRepr e) 100 ++ "...")
  else if strContains model_id "rerank" then do
    let r ← jsonGet body "results"
    .ok (pyTake (pyRepr r) 100 ++ "...")
  else
    .ok ""

/-- Outcome of one network call: a parsed response body, or a raised
exception (network failure, timeout, transport error, `json.loads` failure)
carrying `str(e)`. -/
inductive CallResult : Type where
  | ok (body : JsonVal)
  | exn (msg : String)

/-- The dictionary `invoke_model` returns. -/
structure InvocationResult where
  duration : ℚ
  error : Option String
  response : String
  input_tokens : Nat
  output_tokens : Nat
deriving DecidableEq

/-- `invoke_model` from run.py.  `net` is the network oracle for this call
and `dur` its measured wall-clock duration (`end_time - start_time`).  The
`try` block builds the branch payload, performs the call, and extracts the
response text; any exception — from the call or from the extraction — is
caught, setting `error = str(e)` and leaving `response_text` empty.  When no
dispatch branch matches, the `try` body does nothing and succeeds.
`output_tokens` is `count_tokens(response_text) if response_text else 0`. -/
def invoke_model (net : RequestPayload → CallResult) (dur : ℚ)
    (model_id prompt : String) : InvocationResult :=
  match buildPayload model_id prompt with
  | none =>
    { duration := dur, error := none, response := "",
      input_tokens := count_tokens prompt, output_tokens := 0 }
  | some payload =>
    match net payload with
    | .exn msg =>
      { duration := dur, error := some msg, response := "",
        input_tokens := count_tokens prompt, output_tokens := 0 }
    | .ok body =>
      match extractResponse model_id body with
      | .error msg =>
        { duration := dur, error := some msg, response := "",
          input_tokens := count_tokens prompt, output_tokens := 0 }
      | .ok text =>
        { duration := dur, error := none, response := text,
          input_tokens := count_tokens prompt,
          output_tokens := if text == "" then 0 else count_tokens text }

/-- One row of the results list / CSV, as assembled in `run_benchmark`. -/
structure ResultRow where
  model_id : String
  question_id : Nat
  duration : ℚ
  input_tokens : Nat
  output_tokens : Nat
  total_tokens : Nat
  tokens_per_minute : ℚ
  success : Bool
deriving DecidableEq

/-- The derived fields `run_benchmark` computes for each call:
`success = result[error] is None`,
`total_tokens = input_tokens + output_tokens`, and
`tokens_per_minute = (total_tokens / duration) * 60 if duration > 0 else 0`. -/
def makeRow (model_id : String) (question_id : Nat) (r : InvocationResult) : ResultRow :=
  let total := r.input_tokens + r.output_tokens
  { model_id := model_id, question_id := question_id,
    duration := r.duration,
    input_tokens := r.input_tokens,
    output_tokens := r.output_tokens,
    total_tokens := total,
    tokens_per_minute := if r.duration > 0 then ((total : ℚ) / r.duration) * 60 else 0,
    success := r.error.isNone }

/-- Value of a digit run, most significant first. -/
def digitsVal (ds : List Char) : Nat :=
  ds.foldl (fun a c => a * 10 + (c.toNat - 48)) 0

/-- Python `int(s)` on a string: strip whitespace, allow one sign, then
digits only; `none` models a raised `ValueError`. -/
def pyInt (s : String) : Option Int :=
  match pyStripList s.toList with
  | [] => none
  | c :: rest =>
    let signed : Int × List Char :=
      if c == '-' then (-1, rest) else if c == '+' then (1, rest) else (1, c :: rest)
    if signed.2.isEmpty || !signed.2.all Char.isDigit then none
    else some (signed.1 * (digitsVal signed.2 : Int))

/-- Number of additional iterations actually executed for the console answer
`s` to the extension prompt: `int(input(...) or "1")` substitutes "1" for an
empty answer; a `ValueError` is caught and skips the `for` loop entirely
(0 additional calls); `range(n)` of a non-positive parse is empty. -/
def extIterations (s : String) : Nat :=
  match pyInt (if s == "" then "1" else s) with
  | some n => n.toNat
  | none => 0

/-- The effect oracles a run is parameterised by: `net k` is the network
behaviour of the `k`-th call of the run (regular or additional), `dur k` its
measured duration, and `keyInput r` is `some s` when the reserved key was
pressed at the check following the `r`-th regular call and the user then
typed the line `s` (`none` when `is_p_pressed()` returned false). -/
structure RunEnv where
  net : Nat → RequestPayload → CallResult
  dur : Nat → ℚ
  keyInput : Nat → Option String

/-- Additional iterations requested at the check after regular call `r`. -/
def extAt (env : RunEnv) (r : Nat) : Nat :=
  match env.keyInput r with
  | none => 0
  | some s => extIterations s

/-- The rows emitted by the extension `for j in range(more_iterations)` loop:
each additional call re-invokes the same model and question, derives the same
fields, and appends one row; `c` is the run call counter at entry. -/
def extraRows (env : RunEnv) (model_id : String) (qid : Nat) (q : String)
    (c : Nat) : Nat → List ResultRow
  | 0 => []
  | k + 1 =>
    makeRow model_id qid (invoke_model (env.net c) (env.dur c) model_id q)
      :: extraRows env model_id qid q (c + 1) k

/-- One iteration of the inner question loop: invoke, emit one row, cool
down, then poll the keyboard and possibly run the extension loop.  Returns
the emitted rows and the advanced call / regular-call counters. -/
def stepQuestion (env : RunEnv) (model_id : String) (qid : Nat) (q : String)
    (c r : Nat) : List ResultRow × Nat × Nat :=
  let row := makeRow model_id qid (invoke_model (env.net c) (env.dur c) model_id q)
  match env.keyInput r with
  | none => ([row], c + 1, r + 1)
  | some s =>
    (row :: extraRows env model_id qid q (c + 1) (extIterations s),
     c + 1 + extIterations s, r + 1)

/-- The `for i, question in enumerate(questions)` loop for one model;
`qid` is the 1-based id of the first remaining question. -/
def runQuestions (env : RunEnv) (model_id : String) :
    List String → Nat → Nat → Nat → List ResultRow × Nat × Nat
  | [], _, c, r => ([], c, r)
  | q :: rest, qid, c, r =>
    let step := stepQuestion env model_id qid q c r
    let next := runQuestions env model_id rest (qid + 1) step.2.1 step.2.2
    (step.1 ++ next.1, next.2.1, next.2.2)

/-- The `for model_id in MODELS` loop. -/
def runModels (env : RunEnv) :
    List String → List String → Nat → Nat → List ResultRow × Nat × Nat
  | [], _, c, r => ([], c, r)
  | m :: ms, qs, c, r =>
    let blk := runQuestions env m qs 1 c r
    let next := runModels env ms qs blk.2.1 blk.2.2
    (blk.1 ++ next.1, next.2.1, next.2.2)

/-- `run_benchmark` from run.py: the full list of result rows appended to the
CSV (equivalently to the in-memory results list), in completion order. -/
def run_benchmark (env : RunEnv) (questions : List String) : List ResultRow :=
  (runModels env MODELS questions 0 0).1

/-- Total additional iterations requested over the `n` regular-call checks
starting at regular call `r`. -/
def extTotal (env : RunEnv) (r : Nat) : Nat → Nat
  | 0 => 0
  | n + 1 => extAt env r + extTotal env (r + 1) n

/-! ### Sample effect oracles used by witness instantiations -/

/-- A network oracle on which every call raises. -/
def failNet : RequestPayload → CallResult := fun _ => .exn "boom"

/-- A run environment: every call raises, every duration is 1, the reserved
key is never pressed. -/
def quietEnv : RunEnv := ⟨fun _ => failNet, fun _ => 1, fun _ => none⟩

/-- A run environment: every call raises, every duration is 1, the reserved
key is pressed at every check and the user answers `s`. -/
def keyedEnv (s : String) : RunEnv := ⟨fun _ => failNet, fun _ => 1, fun _ => some s⟩

/-! ### Claim theorems: token estimator, derived metrics, corpus loader -/

/-- Claim C4: the token-count estimator returns `floor(len(s) / 4)` for every
string `s`, and in particular 0 on the empty string. -/
theorem count_tokens_floor_quarter (s : String) :
    count_tokens s = s.length / 4 ∧ count_tokens "" = 0 :=
  ⟨rfl, rfl⟩

/-- Witness for C4 at a concrete string. -/
theorem count_tokens_floor_quarter_witness :
    count_tokens "abcdefghi" = "abcdefghi".length / 4 ∧ count_tokens "" = 0 :=
  count_tokens_floor_quarter "abcdefghi"

/-- Claim C3: every emitted row has `total_tokens` equal to the sum of the
input and output token estimates, and `tokens_per_minute` equal to
`total_tokens / duration * 60` when the duration is positive and 0 otherwise;
at duration 0 the result is 0, and at duration 30 with 500 total tokens the
result is exactly 1000. -/
theorem derived_metrics (model_id : String) (qid : Nat) (r : InvocationResult) :
    (makeRow model_id qid r).total_tokens = r.input_tokens + r.output_tokens ∧
    (makeRow model_id qid r).tokens_per_minute =
      (if 0 < r.duration
        then ((r.input_tokens : ℚ) + (r.output_tokens : ℚ)) / r.duration * 60 else 0) ∧
    (makeRow "m" 1 ⟨0, none, "", 100, 50⟩).tokens_per_minute = 0 ∧
    (makeRow "m" 1 ⟨30, none, "", 300, 200⟩).tokens_per_minute = 1000 := by
  refine ⟨rfl, ?_, by norm_num [makeRow], by norm_num [makeRow]⟩
  simp [makeRow]

/-- Claim C7: the corpus loader yields one prompt per non-blank question
line, in file order, each being the stripped question suffixed with the
framed first 24000 characters of the reference text; blank lines contribute
nothing. -/
theorem load_questions_shape (lines : List String) (bibleText : String) :
    load_questions lines bibleText =
      (lines.filter (fun l => pyStrip l != "")).map
        (fun l => pyStrip l ++ contextHeader ++ pyTake bibleText 24000) ∧
    (pyTake bibleText 24000).length ≤ 24000 ∧
    load_questions ["", "   "] bibleText = [] := by
  refine ⟨?_, ?_, rfl⟩
  · simp only [load_questions, List.filter_map, List.map_map]
    rfl
  · show (bibleText.toList.take 24000).length ≤ 24000
    rw [List.length_take]
    exact min_le_left _ _

/-! ### Claim theorems: error handling in the invoker -/

/-- Claim C2: when the endpoint call raises, `invoke_model` catches the
exception and returns a result with the message as error, empty response
text, zero output tokens and the measured duration; the derived row then has
`success = false`. -/
theorem invoke_catches_exceptions (net : RequestPayload → CallResult) (dur : ℚ)
    (model_id prompt : String) (qid : Nat) (p : RequestPayload) (msg : String)
    (hp : buildPayload model_id prompt = some p) (hnet : net p = .exn msg) :
    invoke_model net dur model_id prompt =
      { duration := dur, error := some msg, response := "",
        input_tokens := count_tokens prompt, output_tokens := 0 } ∧
    (makeRow model_id qid (invoke_model net dur model_id prompt)).success = false ∧
    (makeRow model_id qid (invoke_model net dur model_id prompt)).duration = dur := by
  have h : invoke_model net dur model_id prompt =
      { duration := dur, error := some msg, response := "",
        input_tokens := count_tokens prompt, output_tokens := 0 } := by
    simp only [invoke_model, hp, hnet]
  refine ⟨h, ?_, ?_⟩ <;> rw [h] <;> rfl

/-- Witness for C2: the Claude endpoint with a network oracle that raises. -/
theorem invoke_catches_exceptions_witness :
    buildPayload "anthropic.claude-3-5-sonnet-20240620-v1:0" "hi" =
      some (.claude "bedrock-2023-05-31" 1000 [⟨"user", "hi"⟩]) ∧
    failNet (.claude "bedrock-2023-05-31" 1000 [⟨"user", "hi"⟩]) = .exn "boom" ∧
    (invoke_model failNet 2 "anthropic.claude-3-5-sonnet-20240620-v1:0" "hi" =
      { duration := 2, error := some "boom", response := "",
        input_tokens := count_tokens "hi", output_tokens := 0 } ∧
    (makeRow "anthropic.claude-3-5-sonnet-20240620-v1:0" 1
      (invoke_model failNet 2 "anthropic.claude-3-5-sonnet-20240620-v1:0" "hi")).success
        = false ∧
    (makeRow "anthropic.claude-3-5-sonnet-20240620-v1:0" 1
      (invoke_model failNet 2 "anthropic.claude-3-5-sonnet-20240620-v1:0" "hi")).duration
        = 2) :=
  ⟨rfl, rfl, invoke_catches_exceptions failNet 2 _ "hi" 1 _ "boom" rfl rfl⟩

/-- Claim C10: an identifier matching none of the dispatch substrings sends
no request (no payload is built, the oracle is never consulted), yet the
result has no error, empty response and zero output tokens, so the emitted
row reports `success = true`. -/
theorem unmatched_model_reports_success (net : RequestPayload → CallResult)
    (dur : ℚ) (model_id prompt : String) (qid : Nat)
    (h1 : strContains model_id "claude" = false)
    (h2 : strContains model_id "nova" = false)
    (h3 : strContains model_id "titan-embed" = false)
    (h4 : strContains model_id "rerank" = false) :
    buildPayload model_id prompt = none ∧
    invoke_model net dur model_id prompt =
      { duration := dur, error := none, response := "",
        input_tokens := count_tokens prompt, output_tokens := 0 } ∧
    (makeRow model_id qid (invoke_model net dur model_id prompt)).success = true := by
  have hb : buildPayload model_id prompt = none := by
    simp [buildPayload, h1, h2, h3, h4]
  have h : invoke_model net dur model_id prompt =
      { duration := dur, error := none, response := "",
        input_tokens := count_tokens prompt, output_tokens := 0 } := by
    unfold invoke_model
    rw [hb]
  refine ⟨hb, h, ?_⟩
  rw [h]
  rfl

/-- Witness for C10 at an identifier outside every dispatch branch. -/
theorem unmatched_model_reports_success_witness :
    strContains "mistral.large-2407" "claude" = false ∧
    strContains "mistral.large-2407" "nova" = false ∧
    strContains "mistral.large-2407" "titan-embed" = false ∧
    strContains "mistral.large-2407" "rerank" = false ∧
    (buildPayload "mistral.large-2407" "q" = none ∧
    invoke_model failNet 3 "mistral.large-2407" "q" =
      { duration := 3, error := none, response := "",
        input_tokens := count_tokens "q", output_tokens := 0 } ∧
    (makeRow "mistral.large-2407" 1
      (invoke_model failNet 3 "mistral.large-2407" "q")).success = true) :=
  ⟨rfl, rfl, rfl, rfl,
    unmatched_model_reports_success failNet 3 _ "q" 1 rfl rfl rfl rfl⟩

/-! ### Claim theorems: request payloads of the chat and rerank branches -/

/-- Counterexample to claim C5 as stated: the Nova (chat-completion-alt)
request body carries no max-output-token field at all, and its response text
is read from the top-level `output` field, not from a nested content field
(a content-shaped body raises a `KeyError`). -/
theorem nova_payload_counterexample :
    buildPayload "eu.amazon.nova-lite-v1:0" "hi" =
      some (.nova [⟨"user", ["hi"]⟩]) ∧
    payloadMaxTokens (.nova [⟨"user", ["hi"]⟩]) = none ∧
    (none : Option Nat) ≠ some 1000 ∧
    extractResponse "eu.amazon.nova-lite-v1:0"
      (JsonVal.obj (.cons "content" (.str "t") .nil)) = .error "KeyError: output" :=
  ⟨rfl, rfl, by simp, rfl⟩

/-- Claim C5 as amended: a claude-kind payload is a single user-turn message
with the fixed 1000 max-token cap and its response text comes from the nested
content field; a nova-kind payload is a single user-turn message with no
max-token cap and its response text comes from the top-level output field. -/
theorem chat_payloads_amended (idc idn prompt t : String)
    (hc : strContains idc "claude" = true)
    (hn1 : strContains idn "claude" = false)
    (hn2 : strContains idn "nova" = true) :
    buildPayload idc prompt =
      some (.claude "bedrock-2023-05-31" 1000 [⟨"user", prompt⟩]) ∧
    payloadMaxTokens (.claude "bedrock-2023-05-31" 1000 [⟨"user", prompt⟩]) =
      some 1000 ∧
    extractResponse idc
      (JsonVal.obj (.cons "content"
        (JsonVal.arr (.cons (JsonVal.obj (.cons "text" (.str t) .nil)) .nil)) .nil)) =
      .ok t ∧
    buildPayload idn prompt = some (.nova [⟨"user", [prompt]⟩]) ∧
    payloadMaxTokens (.nova [⟨"user", [prompt]⟩]) = none ∧
    extractResponse idn (JsonVal.obj (.cons "output" (.str t) .nil)) = .ok t := by
  refine ⟨?_, rfl, ?_, ?_, rfl, ?_⟩
  · simp [buildPayload, hc]
  · simp only [extractResponse, hc, if_true]
    rfl
  · simp [buildPayload, hn1, hn2]
  · simp only [extractResponse, hn1, hn2, if_true, Bool.false_eq_true, if_false]
    rfl

/-- Witness for the amended C5 at the two configured chat endpoints. -/
theorem chat_payloads_amended_witness :
    strContains "anthropic.claude-3-5-sonnet-20240620-v1:0" "claude" = true ∧
    strContains "eu.amazon.nova-lite-v1:0" "claude" = false ∧
    strContains "eu.amazon.nova-lite-v1:0" "nova" = true ∧
    (buildPayload "anthropic.claude-3-5-sonnet-20240620-v1:0" "hi" =
      some (.claude "bedrock-2023-05-31" 1000 [⟨"user", "hi"⟩]) ∧
    payloadMaxTokens (.claude "bedrock-2023-05-31" 1000 [⟨"user", "hi"⟩]) =
      some 1000 ∧
    extractResponse "anthropic.claude-3-5-sonnet-20240620-v1:0"
      (JsonVal.obj (.cons "content"
        (JsonVal.arr (.cons (JsonVal.obj (.cons "text" (.str "ans") .nil)) .nil)) .nil)) =
      .ok "ans" ∧
    buildPayload "eu.amazon.nova-lite-v1:0" "hi" = some (.nova [⟨"user", ["hi"]⟩]) ∧
    payloadMaxTokens (.nova [⟨"user", ["hi"]⟩]) = none ∧
    extractResponse "eu.amazon.nova-lite-v1:0"
      (JsonVal.obj (.cons "output" (.str "ans") .nil)) = .ok "ans") :=
  ⟨rfl, rfl, rfl,
    chat_payloads_amended "anthropic.claude-3-5-sonnet-20240620-v1:0"
      "eu.amazon.nova-lite-v1:0" "hi" "ans" rfl rfl rfl⟩

/-- Counterexample to claim C6 as stated: the rerank request pairs the prompt
with three fixed literal documents, not five 1000-character windows sampled
from the reference text; the first document has length 30. -/
theorem rerank_documents_counterexample :
    buildPayload "cohere.rerank-v3-5:0" "q" =
      some (.rerank
        ["Paris is the capital of France",
         "London is the capital of England",
         "Berlin is the capital of Germany"] "q" 1) ∧
    ["Paris is the capital of France",
     "London is the capital of England",
     "Berlin is the capital of Germany"].length = 3 ∧
    (3 : Nat) ≠ 5 ∧
    "Paris is the capital of France".length ≠ 1000 :=
  ⟨rfl, rfl, by decide, by decide⟩

/-- Claim C6 as amended: a rerank-kind invocation pairs the prompt as the
query with the three fixed literal documents and `top_n = 1`; the documents
do not depend on the prompt or on any reference text. -/
theorem rerank_payload_amended (id prompt : String)
    (h1 : strContains id "claude" = false)
    (h2 : strContains id "nova" = false)
    (h3 : strContains id "titan-embed" = false)
    (h4 : strContains id "rerank" = true) :
    buildPayload id prompt =
      some (.rerank
        ["Paris is the capital of France",
         "London is the capital of England",
         "Berlin is the capital of Germany"] prompt 1) ∧
    payloadDocuments (.rerank
        ["Paris is the capital of France",
         "London is the capital of England",
         "Berlin is the capital of Germany"] prompt 1) =
      some ["Paris is the capital of France",
            "London is the capital of England",
            "Berlin is the capital of Germany"] := by
  refine ⟨?_, rfl⟩
  simp [buildPayload, h1, h2, h3, h4]

/-- Witness for the amended C6 at the configured rerank endpoint. -/
theorem rerank_payload_amended_witness :
    strContains "cohere.rerank-v3-5:0" "claude" = false ∧
    strContains "cohere.rerank-v3-5:0" "nova" = false ∧
    strContains "cohere.rerank-v3-5:0" "titan-embed" = false ∧
    strContains "cohere.rerank-v3-5:0" "rerank" = true ∧
    (buildPayload "cohere.rerank-v3-5:0" "what is the capital of France" =
      some (.rerank
        ["Paris is the capital of France",
         "London is the capital of England",
         "Berlin is the capital of Germany"] "what is the capital of France" 1) ∧
    payloadDocuments (.rerank
        ["Paris is the capital of France",
         "London is the capital of England",
         "Berlin is the capital of Germany"] "what is the capital of France" 1) =
      some ["Paris is the capital of France",
            "London is the capital of England",
            "Berlin is the capital of Germany"]) :=
  ⟨rfl, rfl, rfl, rfl,
    rerank_payload_amended "cohere.rerank-v3-5:0" "what is the capital of France"
      rfl rfl rfl rfl⟩

/-! ### Claim theorems: extension-prompt input handling -/

/-- Counterexample to claim C9 as stated: an empty answer is substituted with
the default 1, but a non-numeric answer is not — the `ValueError` is caught
and the extension runs zero additional iterations, which differs from the
default. -/
theorem extension_default_counterexample :
    extIterations "" = 1 ∧
    pyInt "abc" = none ∧
    extIterations "abc" = 0 ∧
    (0 : Nat) ≠ 1 :=
  ⟨rfl, rfl, rfl, by decide⟩

/-- Claim C9 as amended: an empty answer to the extension prompt is replaced
by the default 1; a non-numeric answer raises a `ValueError` that is caught,
skipping the extension entirely (zero additional calls); in both cases the
run continues with the regular loop at its prior position, never
terminating. -/
theorem extension_input_recovery (env : RunEnv) (model_id q : String)
    (rest : List String) (qid c r : Nat) (s : String)
    (hk : env.keyInput r = some s) (hs : s ≠ "") (hp : pyInt s = none) :
    extIterations s = 0 ∧
    (stepQuestion env model_id qid q c r).1 =
      [makeRow model_id qid (invoke_model (env.net c) (env.dur c) model_id q)] ∧
    (stepQuestion env model_id qid q c r).2 = (c + 1, r + 1) ∧
    (runQuestions env model_id (q :: rest) qid c r).1 =
      (stepQuestion env model_id qid q c r).1 ++
        (runQuestions env model_id rest (qid + 1) (c + 1) (r + 1)).1 ∧
    extIterations "" = 1 := by
  have he : extIterations s = 0 := by
    have hbe : (s == "") = false := by
      simpa using hs
    simp [extIterations, hbe, hp]
  have hstep : stepQuestion env model_id qid q c r =
      ([makeRow model_id qid (invoke_model (env.net c) (env.dur c) model_id q)],
        c + 1, r + 1) := by
    simp [stepQuestion, hk, he, extraRows]
  refine ⟨he, ?_, ?_, ?_, rfl⟩
  · rw [hstep]
  · rw [hstep]
  · show (runQuestions env model_id (q :: rest) qid c r).1 = _
    simp only [runQuestions, hstep]

/-- Witness for the amended C9 with the non-numeric console answer. -/
theorem extension_input_recovery_witness :
    (keyedEnv "abc").keyInput 0 = some "abc" ∧
    "abc" ≠ "" ∧
    pyInt "abc" = none ∧
    (extIterations "abc" = 0 ∧
    (stepQuestion (keyedEnv "abc") "m" 1 "q" 0 0).1 =
      [makeRow "m" 1 (invoke_model ((keyedEnv "abc").net 0)
        ((keyedEnv "abc").dur 0) "m" "q")] ∧
    (stepQuestion (keyedEnv "abc") "m" 1 "q" 0 0).2 = (0 + 1, 0 + 1) ∧
    (runQuestions (keyedEnv "abc") "m" ["q", "q2"] 1 0 0).1 =
      (stepQuestion (keyedEnv "abc") "m" 1 "q" 0 0).1 ++
        (runQuestions (keyedEnv "abc") "m" ["q2"] (1 + 1) (0 + 1) (0 + 1)).1 ∧
    extIterations "" = 1) :=
  ⟨rfl, by decide, rfl,
    extension_input_recovery (keyedEnv "abc") "m" "q" ["q2"] 1 0 0 "abc"
      rfl (by decide) rfl⟩

/-! ### Structural lemmas about the benchmark loop -/

theorem extraRows_length (env : RunEnv) (model_id : String) (qid : Nat)
    (q : String) : ∀ (k c : Nat), (extraRows env model_id qid q c k).length = k
  | 0, _ => rfl
  | k + 1, c => by
    simp [extraRows, extraRows_length env model_id qid q k (c + 1)]

theorem extraRows_get? (env : RunEnv) (model_id : String) (qid : Nat)
    (q : String) : ∀ (k c j : Nat), j < k →
    (extraRows env model_id qid q c k).get? j =
      some (makeRow model_id qid
        (invoke_model (env.net (c + j)) (env.dur (c + j)) model_id q)) := by
  intro k
  induction k with
  | zero => omega
  | succ k ih =>
    intro c j hj
    cases j with
    | zero => rfl
    | succ j =>
      show (extraRows env model_id qid q (c + 1) k).get? j = _
      rw [ih (c + 1) j (by omega)]
      have : c + 1 + j = c + (j + 1) := by omega
      rw [this]

theorem extraRows_fields (env : RunEnv) (model_id : String) (qid : Nat)
    (q : String) : ∀ (k c : Nat), ∀ row ∈ extraRows env model_id qid q c k,
    row.model_id = model_id ∧ row.question_id = qid := by
  intro k
  induction k with
  | zero => intro c row h; cases h
  | succ k ih =>
    intro c row h
    rcases List.mem_cons.mp h with h | h
    · subst h; exact ⟨rfl, rfl⟩
    · exact ih (c + 1) row h

theorem stepQuestion_rows_length (env : RunEnv) (model_id : String) (qid : Nat)
    (q : String) (c r : Nat) :
    (stepQuestion env model_id qid q c r).1.length = 1 + extAt env r := by
  cases h : env.keyInput r <;>
    simp [stepQuestion, extAt, h, extraRows_length, Nat.add_comm]

theorem stepQuestion_counters (env : RunEnv) (model_id : String) (qid : Nat)
    (q : String) (c r : Nat) :
    (stepQuestion env model_id qid q c r).2 = (c + 1 + extAt env r, r + 1) := by
  cases h : env.keyInput r <;> simp [stepQuestion, extAt, h]

theorem stepQuestion_fields (env : RunEnv) (model_id : String) (qid : Nat)
    (q : String) (c r : Nat) :
    ∀ row ∈ (stepQuestion env model_id qid q c r).1,
    row.model_id = model_id ∧ row.question_id = qid := by
  intro row h
  cases hk : env.keyInput r <;> rw [stepQuestion] at h <;> rw [hk] at h
  · rcases List.mem_singleton.mp h with h
    subst h; exact ⟨rfl, rfl⟩
  · rcases List.mem_cons.mp h with h | h
    · subst h; exact ⟨rfl, rfl⟩
    · exact extraRows_fields env model_id qid q _ _ row h

/-- Claim C8: when the keypress is detected after a regular call and the
console answer parses to `k`, the controller emits the regular row followed
by exactly `k` additional rows for the same endpoint and question — the
`j`-th additional row being the fully derived record of one more timed,
error-handled invocation of the same pair — advances its counters past those
`k` calls, and resumes the regular loop at its prior position. -/
theorem extension_adds_k_iterations (env : RunEnv) (model_id q : String)
    (rest : List String) (qid c r : Nat) (s : String)
    (hk : env.keyInput r = some s) :
    (stepQuestion env model_id qid q c r).1 =
      makeRow model_id qid (invoke_model (env.net c) (env.dur c) model_id q)
        :: extraRows env model_id qid q (c + 1) (extIterations s) ∧
    (extraRows env model_id qid q (c + 1) (extIterations s)).length =
      extIterations s ∧
    (∀ j, j < extIterations s →
      (extraRows env model_id qid q (c + 1) (extIterations s)).get? j =
        some (makeRow model_id qid
          (invoke_model (env.net (c + 1 + j)) (env.dur (c + 1 + j)) model_id q))) ∧
    (∀ row ∈ extraRows env model_id qid q (c + 1) (extIterations s),
      row.model_id = model_id ∧ row.question_id = qid) ∧
    (stepQuestion env model_id qid q c r).2 = (c + 1 + extIterations s, r + 1) ∧
    (runQuestions env model_id (q :: rest) qid c r).1 =
      (stepQuestion env model_id qid q c r).1 ++
        (runQuestions env model_id rest (qid + 1)
          (c + 1 + extIterations s) (r + 1)).1 := by
  have hstep2 : (stepQuestion env model_id qid q c r).2 =
      (c + 1 + extIterations s, r + 1) := by
    simp [stepQuestion, hk]
  refine ⟨by simp [stepQuestion, hk], extraRows_length env model_id qid q _ _,
    fun j hj => extraRows_get? env model_id qid q _ _ j hj,
    fun row h => extraRows_fields env model_id qid q _ _ row h, hstep2, ?_⟩
  show (runQuestions env model_id (q :: rest) qid c r).1 = _
  simp only [runQuestions]
  rw [hstep2]

/-- Witness for C8 with the console answer 2. -/
theorem extension_adds_k_iterations_witness :
    (keyedEnv "2").keyInput 0 = some "2" ∧
    ((stepQuestion (keyedEnv "2") "m" 1 "q" 0 0).1 =
      makeRow "m" 1 (invoke_model ((keyedEnv "2").net 0) ((keyedEnv "2").dur 0) "m" "q")
        :: extraRows (keyedEnv "2") "m" 1 "q" (0 + 1) (extIterations "2") ∧
    (extraRows (keyedEnv "2") "m" 1 "q" (0 + 1) (extIterations "2")).length =
      extIterations "2" ∧
    (∀ j, j < extIterations "2" →
      (extraRows (keyedEnv "2") "m" 1 "q" (0 + 1) (extIterations "2")).get? j =
        some (makeRow "m" 1
          (invoke_model ((keyedEnv "2").net (0 + 1 + j))
            ((keyedEnv "2").dur (0 + 1 + j)) "m" "q"))) ∧
    (∀ row ∈ extraRows (keyedEnv "2") "m" 1 "q" (0 + 1) (extIterations "2"),
      row.model_id = "m" ∧ row.question_id = 1) ∧
    (stepQuestion (keyedEnv "2") "m" 1 "q" 0 0).2 =
      (0 + 1 + extIterations "2", 0 + 1) ∧
    (runQuestions (keyedEnv "2") "m" ["q", "q2"] 1 0 0).1 =
      (stepQuestion (keyedEnv "2") "m" 1 "q" 0 0).1 ++
        (runQuestions (keyedEnv "2") "m" ["q2"] (1 + 1)
          (0 + 1 + extIterations "2") (0 + 1)).1) :=
  ⟨rfl, extension_adds_k_iterations (keyedEnv "2") "m" "q" ["q2"] 1 0 0 "2" rfl⟩

theorem extTotal_add (env : RunEnv) :
    ∀ (a r b : Nat), extTotal env r (a + b) = extTotal env r a + extTotal env (r + a) b := by
  intro a
  induction a with
  | zero => intro r b; simp [extTotal]
  | succ a ih =>
    intro r b
    have h1 : a + 1 + b = (a + b) + 1 := by omega
    rw [h1]
    show extAt env r + extTotal env (r + 1) (a + b) = _
    rw [ih (r + 1) b]
    show _ = extAt env r + extTotal env (r + 1) a + extTotal env (r + (a + 1)) b
    have h2 : r + 1 + a = r + (a + 1) := by omega
    rw [h2, Nat.add_assoc]

theorem runQuestions_counters (env : RunEnv) (model_id : String) :
    ∀ (qs : List String) (qid c r : Nat),
    (runQuestions env model_id qs qid c r).2.2 = r + qs.length := by
  intro qs
  induction qs with
  | nil => intro qid c r; rfl
  | cons q rest ih =>
    intro qid c r
    show (runQuestions env model_id rest (qid + 1)
      (stepQuestion env model_id qid q c r).2.1
      (stepQuestion env model_id qid q c r).2.2).2.2 = _
    rw [ih, stepQuestion_counters]
    simp only [List.length_cons]
    omega

theorem runQuestions_rows_length (env : RunEnv) (model_id : String) :
    ∀ (qs : List String) (qid c r : Nat),
    (runQuestions env model_id qs qid c r).1.length =
      qs.length + extTotal env r qs.length := by
  intro qs
  induction qs with
  | nil => intro qid c r; rfl
  | cons q rest ih =>
    intro qid c r
    show ((stepQuestion env model_id qid q c r).1 ++
      (runQuestions env model_id rest (qid + 1)
        (stepQuestion env model_id qid q c r).2.1
        (stepQuestion env model_id qid q c r).2.2).1).length = _
    rw [List.length_append, stepQuestion_rows_length, stepQuestion_counters, ih]
    show 1 + extAt env r + (rest.length + extTotal env (r + 1) rest.length) = _
    show _ = rest.length + 1 + (extAt env r + extTotal env (r + 1) rest.length)
    omega

theorem runQuestions_mem (env : RunEnv) (model_id : String) :
    ∀ (qs : List String) (qid c r : Nat),
    ∀ row ∈ (runQuestions env model_id qs qid c r).1,
    row.model_id = model_id ∧ qid ≤ row.question_id ∧
      row.question_id < qid + qs.length := by
  intro qs
  induction qs with
  | nil => intro qid c r row h; cases h
  | cons q rest ih =>
    intro qid c r row h
    rcases List.mem_append.mp h with h | h
    · obtain ⟨hm, hq⟩ := stepQuestion_fields env model_id qid q c r row h
      refine ⟨hm, ?_, ?_⟩
      · rw [hq]
      · rw [hq]
        simp
    · obtain ⟨hm, h1, h2⟩ := ih (qid + 1) _ _ row h
      refine ⟨hm, by omega, ?_⟩
      simp only [List.length_cons]
      omega

theorem runQuestions_countP (env : RunEnv) (model_id : String) :
    ∀ (qs : List String) (qid c r i : Nat), qid ≤ i → i < qid + qs.length →
    ((runQuestions env model_id qs qid c r).1.countP
      (fun row => row.question_id == i)) = 1 + extAt env (r + (i - qid)) := by
  intro qs
  induction qs with
  | nil =>
    intro qid c r i h1 h2
    simp only [List.length_nil] at h2
    omega
  | cons q rest ih =>
    intro qid c r i h1 h2
    show (((stepQuestion env model_id qid q c r).1 ++
      (runQuestions env model_id rest (qid + 1)
        (stepQuestion env model_id qid q c r).2.1
        (stepQuestion env model_id qid q c r).2.2).1).countP
          (fun row => row.question_id == i)) = _
    rw [List.countP_append]
    rcases Nat.eq_or_lt_of_le h1 with hiq | hiq
    · subst hiq
      have hstep : ((stepQuestion env model_id qid q c r).1.countP
          (fun row => row.question_id == qid)) =
          (stepQuestion env model_id qid q c r).1.length := by
        rw [List.countP_eq_length]
        intro row h
        obtain ⟨_, hq⟩ := stepQuestion_fields env model_id qid q c r row h
        simp [hq]
      have hnext : ((runQuestions env model_id rest (qid + 1)
          (stepQuestion env model_id qid q c r).2.1
          (stepQuestion env model_id qid q c r).2.2).1.countP
            (fun row => row.question_id == qid)) = 0 := by
        rw [List.countP_eq_zero]
        intro row h
        obtain ⟨_, hlo, _⟩ := runQuestions_mem env model_id rest (qid + 1) _ _ row h
        simp only [beq_iff_eq]
        omega
      rw [hstep, hnext, stepQuestion_rows_length]
      simp
    · have hstep : ((stepQuestion env model_id qid q c r).1.countP
          (fun row => row.question_id == i)) = 0 := by
        rw [List.countP_eq_zero]
        intro row h
        obtain ⟨_, hq⟩ := stepQuestion_fields env model_id qid q c r row h
        simp only [beq_iff_eq, hq]
        omega
      rw [hstep, stepQuestion_counters]
      show 0 + ((runQuestions env model_id rest (qid + 1) _ (r + 1)).1.countP
        (fun row => row.question_id == i)) = _
      rw [ih (qid + 1) _ (r + 1) i (by omega) (by simp only [List.length_cons] at h2; omega)]
      have : r + 1 + (i - (qid + 1)) = r + (i - qid) := by omega
      rw [this]
      omega

theorem runModels_counters (env : RunEnv) :
    ∀ (ms : List String) (qs : List String) (c r : Nat),
    (runModels env ms qs c r).2.2 = r + ms.length * qs.length := by
  intro ms
  induction ms with
  | nil => intro qs c r; simp [runModels]
  | cons m rest ih =>
    intro qs c r
    show (runModels env rest qs (runQuestions env m qs 1 c r).2.1
      (runQuestions env m qs 1 c r).2.2).2.2 = _
    rw [ih, runQuestions_counters]
    simp only [List.length_cons]
    rw [Nat.succ_mul]
    omega

theorem runModels_rows_length (env : RunEnv) :
    ∀ (ms : List String) (qs : List String) (c r : Nat),
    (runModels env ms qs c r).1.length =
      ms.length * qs.length + extTotal env r (ms.length * qs.length) := by
  intro ms
  induction ms with
  | nil => intro qs c r; simp [runModels, extTotal]
  | cons m rest ih =>
    intro qs c r
    show ((runQuestions env m qs 1 c r).1 ++
      (runModels env rest qs (runQuestions env m qs 1 c r).2.1
        (runQuestions env m qs 1 c r).2.2).1).length = _
    rw [List.length_append, runQuestions_rows_length, ih, runQuestions_counters]
    have hmul : (m :: rest).length * qs.length =
        qs.length + rest.length * qs.length := by
      simp only [List.length_cons]
      rw [Nat.succ_mul]
      omega
    rw [hmul, extTotal_add env qs.length r (rest.length * qs.length)]
    omega

theorem runModels_mem (env : RunEnv) :
    ∀ (ms : List String) (qs : List String) (c r : Nat),
    ∀ row ∈ (runModels env ms qs c r).1, row.model_id ∈ ms := by
  intro ms
  induction ms with
  | nil => intro qs c r row h; cases h
  | cons m rest ih =>
    intro qs c r row h
    rcases List.mem_append.mp h with h | h
    · obtain ⟨hm, _, _⟩ := runQuestions_mem env m qs 1 c r row h
      rw [hm]
      exact List.mem_cons_self m rest
    · exact List.mem_cons_of_mem m (ih qs _ _ row h)

theorem runModels_countP (env : RunEnv) (qs : List String) (i : Nat)
    (hi1 : 1 ≤ i) (hi2 : i ≤ qs.length) (m : String) :
    ∀ (pre : List String) (post : List String) (c r : Nat),
    m ∉ pre → m ∉ post →
    ((runModels env (pre ++ m :: post) qs c r).1.countP
      (fun row => row.model_id == m && row.question_id == i)) =
      1 + extAt env (r + pre.length * qs.length + (i - 1)) := by
  intro pre
  induction pre with
  | nil =>
    intro post c r _ hpost
    show (((runQuestions env m qs 1 c r).1 ++
      (runModels env post qs (runQuestions env m qs 1 c r).2.1
        (runQuestions env m qs 1 c r).2.2).1).countP _) = _
    rw [List.countP_append]
    have hblk : ((runQuestions env m qs 1 c r).1.countP
        (fun row => row.model_id == m && row.question_id == i)) =
        ((runQuestions env m qs 1 c r).1.countP
          (fun row => row.question_id == i)) := by
      apply List.countP_congr
      intro row h
      obtain ⟨hm', _, _⟩ := runQuestions_mem env m qs 1 c r row h
      simp [hm']
    have hnext : ((runModels env post qs (runQuestions env m qs 1 c r).2.1
        (runQuestions env m qs 1 c r).2.2).1.countP
          (fun row => row.model_id == m && row.question_id == i)) = 0 := by
      rw [List.countP_eq_zero]
      intro row h
      have hmem := runModels_mem env post qs _ _ row h
      simp only [Bool.and_eq_true, beq_iff_eq, not_and]
      intro heq
      exact absurd (heq ▸ hmem) hpost
    rw [hblk, hnext, runQuestions_countP env m qs 1 c r i hi1 (by omega)]
    have harg : r + ([] : List String).length * qs.length + (i - 1) =
        r + (i - 1) := by
      simp
    rw [harg]
    omega
  | cons p pre ih =>
    intro post c r hpre hpost
    have hne : p ≠ m := by
      intro h
      exact hpre (h ▸ List.mem_cons_self p pre)
    have hmpre : m ∉ pre := fun h => hpre (List.mem_cons_of_mem p h)
    show (((runQuestions env p qs 1 c r).1 ++
      (runModels env (pre ++ m :: post) qs (runQuestions env p qs 1 c r).2.1
        (runQuestions env p qs 1 c r).2.2).1).countP _) = _
    rw [List.countP_append]
    have hblk : ((runQuestions env p qs 1 c r).1.countP
        (fun row => row.model_id == m && row.question_id == i)) = 0 := by
      rw [List.countP_eq_zero]
      intro row h
      obtain ⟨hm', _, _⟩ := runQuestions_mem env p qs 1 c r row h
      simp only [Bool.and_eq_true, beq_iff_eq, not_and, hm']
      intro heq
      exact absurd heq hne
    rw [hblk, runQuestions_counters, ih post _ (r + qs.length) hmpre hpost]
    have harg : r + qs.length + pre.length * qs.length + (i - 1) =
        r + (p :: pre).length * qs.length + (i - 1) := by
      simp only [List.length_cons]
      rw [Nat.succ_mul]
      omega
    rw [harg]
    omega

/-- Claim C1: a run emits exactly one result row per regular call — totalling
number-of-models times number-of-questions — plus exactly one row per
interactively added extension call, appended in completion order; for every
configured endpoint (at position `pre.length` of the model list) and every
question index there is exactly one regular row plus the extension rows added
at that position. -/
theorem record_count_invariant (env : RunEnv) (qs : List String)
    (m : String) (i : Nat) (pre post : List String)
    (hsplit : MODELS = pre ++ m :: post) (hpre : m ∉ pre) (hpost : m ∉ post)
    (hi1 : 1 ≤ i) (hi2 : i ≤ qs.length) :
    (run_benchmark env qs).length =
      MODELS.length * qs.length +
        extTotal env 0 (MODELS.length * qs.length) ∧
    ((run_benchmark env qs).countP
      (fun row => row.model_id == m && row.question_id == i)) =
      1 + extAt env (pre.length * qs.length + (i - 1)) := by
  constructor
  · exact runModels_rows_length env MODELS qs 0 0
  · show ((runModels env MODELS qs 0 0).1.countP _) = _
    rw [hsplit]
    have h := runModels_countP env qs i hi1 hi2 m pre post 0 0 hpre hpost
    simpa using h

/-- Witness for C1: the embedding endpoint (position 2 of the model list),
question 2 of 2, extension requested at every check. -/
theorem record_count_invariant_witness :
    MODELS = ["anthropic.claude-3-5-sonnet-20240620-v1:0",
              "eu.amazon.nova-lite-v1:0"] ++
      "amazon.titan-embed-text-v2:0" :: ["cohere.rerank-v3-5:0"] ∧
    "amazon.titan-embed-text-v2:0" ∉
      ["anthropic.claude-3-5-sonnet-20240620-v1:0", "eu.amazon.nova-lite-v1:0"] ∧
    "amazon.titan-embed-text-v2:0" ∉ ["cohere.rerank-v3-5:0"] ∧
    1 ≤ 2 ∧ 2 ≤ (["a", "b"] : List String).length ∧
    ((run_benchmark (keyedEnv "3") ["a", "b"]).length =
      MODELS.length * (["a", "b"] : List String).length +
        extTotal (keyedEnv "3") 0
          (MODELS.length * (["a", "b"] : List String).length) ∧
    ((run_benchmark (keyedEnv "3") ["a", "b"]).countP
      (fun row => row.model_id == "amazon.titan-embed-text-v2:0" &&
        row.question_id == 2)) =
      1 + extAt (keyedEnv "3")
        ((["anthropic.claude-3-5-sonnet-20240620-v1:0",
           "eu.amazon.nova-lite-v1:0"] : List String).length *
          (["a", "b"] : List String).length + (2 - 1))) :=
  ⟨rfl, by decide, by decide, by decide, by decide,
    record_count_invariant (keyedEnv "3") ["a", "b"]
      "amazon.titan-embed-text-v2:0" 2
      ["anthropic.claude-3-5-sonnet-20240620-v1:0", "eu.amazon.nova-lite-v1:0"]
      ["cohere.rerank-v3-5:0"] rfl (by decide) (by decide) (by decide) (by decide)⟩

end BenchRun
